import Mathlib

/-!
Shallow embedding of `metricbeat/mb/module/wrapper.go`: the module/metricset
worker scheduler and event-reporting pipeline of a metrics agent.

Modelling conventions:
* Go `time.Time` values are `Nat` (nanoseconds since some epoch); the Go zero
  time is `0`, so `t.IsZero()` becomes `t = 0`.
* Go `time.Duration` values are `Nat` (`0` = unset).
* Go `error` values are `Option String` (`none` = `nil`).
* The monitoring counters (`monitoring.Int`, 64-bit) and the stats ref count
  (`uint32`) are modelled as `Nat`; their Go widths only diverge from `Nat`
  beyond 2^63 (resp. 2^32) live increments, which no reachable execution of
  the scheduler approaches, so overflow is not modelled.
* Channel operations (`select` on the `done` channel vs. a send or a timer)
  are modelled by making the branch taken an explicit boolean/trace input.
-/

namespace BeatsModule

/-- Counter values of one `stats` bundle (`wrapper.go`, `type stats`):
total success events, total error events, total events published. -/
structure Stats where
  success : Nat
  failures : Nat
  events : Nat
deriving DecidableEq

def Stats.zero : Stats := ⟨0, 0, 0⟩

/-- Payload fields of an event (`mapstr.M`), opaque to the wrapper. -/
abbrev MapStr := List (String × String)

/-- `mb.Event`, restricted to the fields `wrapper.go` reads or writes:
timestamp, elapsed duration (`Took`), period, host, namespace, error, and
the opaque payload fields. -/
structure MBEvent where
  timestamp : Nat
  took : Nat
  period : Nat
  host : String
  ns : String
  error : Option String
  fields : Option MapStr
deriving DecidableEq

/-- `beat.Event` as produced by `event.BeatEvent(module, name, modifiers...)`:
the final shippable event. `BeatEvent` itself lives in the `mb` package
(outside this file's source), so it is kept as a record of its inputs; all the
wrapper guarantees concern the `mb.Event` it passes in. -/
structure BeatEvent where
  moduleName : String
  metricSetName : String
  event : MBEvent
deriving DecidableEq

/-- State of one `eventReporter` (plus the fields of its `metricSetWrapper`
and module that `reporterV2.Event` reads): fetch start time (`0` = zero for
push sources), the wrapper's `periodic` flag, the module's configured period,
the metricset's resolved host (`HostData().SanitizedURI`), its registered
namespace (`Registration().Namespace`), the module and metricset names, and
the shared stats counters. -/
structure EventReporter where
  start : Nat
  periodic : Bool
  configPeriod : Nat
  hostData : String
  regNamespace : String
  moduleName : String
  metricSetName : String
  stats : Stats
deriving DecidableEq

/-- `StartFetchTimer`: records the wall-clock start of the current fetch. -/
def startFetchTimer (r : EventReporter) (now : Nat) : EventReporter :=
  { r with start := now }

/-- `writeEvent(done, out, event)`: `select` between `<-done` and
`out <- event`. `doneFired` says the done branch of the select fired first
(the shutdown signal closed before the write completed); then the write is
abandoned and `false` is returned. Otherwise the event is appended to the
output stream and `true` is returned. -/
def writeEvent (doneFired : Bool) (out : List BeatEvent) (e : BeatEvent) :
    List BeatEvent × Bool :=
  if doneFired then (out, false) else (out ++ [e], true)

/-- The body of `reporterV2.Event` up to (and excluding) the write to the
output stream, in source order: fill `Took` from the fetch timer, stamp the
period when periodic, default the timestamp, default the host, bump the
success/failure counter, default the namespace. Returns the fully-populated
event and the updated counters. `now` is the wall-clock time of the call. -/
def reporterV2EventCore (r : EventReporter) (now : Nat) (event : MBEvent) :
    MBEvent × Stats :=
  let event := if event.took = 0 ∧ r.start ≠ 0 then
      { event with took := now - r.start } else event
  let event := if r.periodic then { event with period := r.configPeriod } else event
  let event := if event.timestamp = 0 then
      (if r.start ≠ 0 then { event with timestamp := r.start }
       else { event with timestamp := now })
    else event
  let event := if event.host = "" then { event with host := r.hostData } else event
  let stats := if event.error = none then
      { r.stats with success := r.stats.success + 1 }
    else
      { r.stats with failures := r.stats.failures + 1 }
  let event := if event.ns = "" then { event with ns := r.regNamespace } else event
  (event, stats)

/-- `reporterV2.Event`: populate the event and update the success/failure
counter (`reporterV2EventCore`), build the `beat.Event`, then attempt the
write; on success bump the events-published counter and return `true`, on a
write rejected by shutdown return `false`. -/
def reporterV2Event (r : EventReporter) (now : Nat) (doneFired : Bool)
    (out : List BeatEvent) (event : MBEvent) :
    EventReporter × List BeatEvent × Bool :=
  let core := reporterV2EventCore r now event
  let beatEvent : BeatEvent := ⟨r.moduleName, r.metricSetName, core.1⟩
  let w := writeEvent doneFired out beatEvent
  if w.2 then
    ({ r with stats := { core.2 with events := core.2.events + 1 } }, w.1, true)
  else
    ({ r with stats := core.2 }, w.1, false)

/-- `reporterV2.Error(err)`: reports `mb.Event{Error: err}`. -/
def reporterV2Error (r : EventReporter) (now : Nat) (doneFired : Bool)
    (out : List BeatEvent) (err : Option String) :
    EventReporter × List BeatEvent × Bool :=
  reporterV2Event r now doneFired out ⟨0, 0, 0, "", "", err, none⟩

/-- Modelled from the spec: `mb.TransformMapStrToEvent(module, meta, err)`
lives in the `mb` package, outside this file's source. The spec describes the
legacy adapter only as forwarding "a transformed event" built from the
single-field map and the error to the event-shaped path, so the transform is
kept as a record of its inputs: an otherwise-zero event carrying the payload
map and the error. -/
def TransformMapStrToEvent (_module : String) (meta : Option MapStr)
    (err : Option String) : MBEvent :=
  ⟨0, 0, 0, "", "", err, meta⟩

/-- `reporterV1.ErrorWith(err, meta)`: the deprecated legacy (V1) reporting
adapter. Skips nil events without error (returning `true` and touching
nothing); otherwise forwards the transformed event to `reporterV2.Event`. -/
def reporterV1ErrorWith (r : EventReporter) (now : Nat) (doneFired : Bool)
    (out : List BeatEvent) (err : Option String) (meta : Option MapStr) :
    EventReporter × List BeatEvent × Bool :=
  if err = none ∧ meta = none then
    (r, out, true)
  else
    reporterV2Event r now doneFired out
      (TransformMapStrToEvent r.moduleName meta err)

/-- `reporterV1.Event(event)` forwards to `ErrorWith(nil, event)`. -/
def reporterV1Event (r : EventReporter) (now : Nat) (doneFired : Bool)
    (out : List BeatEvent) (meta : Option MapStr) :
    EventReporter × List BeatEvent × Bool :=
  reporterV1ErrorWith r now doneFired out none meta

/-- A "closed channel" style shutdown signal: an identity (so that "the same
underlying channel" is expressible) plus whether it has been closed. -/
structure DoneChannel where
  id : Nat
  closed : Bool
deriving DecidableEq

/-- `channelContext`: wraps a done channel as a `context.Context`. -/
structure ChannelContext where
  done : DoneChannel
deriving DecidableEq

/-- `channelContext.Deadline() (time.Time, bool)`: always the zero time and
`false` (no deadline). -/
def ChannelContext.deadline (_ : ChannelContext) : Nat × Bool := (0, false)

/-- `channelContext.Done()`: the wrapped channel itself. -/
def ChannelContext.doneChan (c : ChannelContext) : DoneChannel := c.done

/-- `context.Canceled`'s message. -/
def contextCanceled : String := "context canceled"

/-- `channelContext.Err()`: `select` with a `default` branch — returns
`context.Canceled` iff the wrapped channel is closed, `nil` otherwise. -/
def ChannelContext.err (c : ChannelContext) : Option String :=
  if c.done.closed then some contextCanceled else none

/-! ### The stats registry (`fetches`, `getMetricSetStats`, `releaseStats`)

The process-wide `fetches` map is modelled as an association list so that
"the registry never holds two live entries for the same key" is a real
statement about the model (Go map key uniqueness becomes an invariant).
All registry mutation happens under `fetchesLock`, so a run of the registry
is a sequence of atomic acquire/release steps. -/

/-- One registry entry: the shared `stats` bundle — ref count plus the three
counters. A fresh entry has `ref = 1` and zero counters. -/
structure StatsEntry where
  ref : Nat
  counters : Stats
deriving DecidableEq

/-- The `fetches` map: key → shared stats entry. -/
abbrev Registry := List (String × StatsEntry)

/-- Go map lookup `fetches[key]`. -/
def lookupReg : Registry → String → Option StatsEntry
  | [], _ => none
  | (k', s) :: rest, key => if k' = key then some s else lookupReg rest key

/-- Replace the entry stored under `key` (Go mutates the entry in place
through the shared pointer). -/
def setEntry : Registry → String → StatsEntry → Registry
  | [], _, _ => []
  | (k', s) :: rest, key, e =>
    if k' = key then (k', e) :: setEntry rest key e
    else (k', s) :: setEntry rest key e

/-- Go `delete(fetches, key)`. -/
def removeKey : Registry → String → Registry
  | [], _ => []
  | (k', s) :: rest, key =>
    if k' = key then removeKey rest key else (k', s) :: removeKey rest key

/-- The stats key built by `getMetricSetStats`. -/
def statsKey (module name : String) : String :=
  "metricbeat." ++ module ++ "." ++ name

/-- The body of `getMetricSetStats` after the key is built: under the lock,
if an entry for the key exists bump its ref count and hand it out; otherwise
create a fresh zero-valued entry with `ref = 1` and register it. Returns the
new registry and the key of the handle handed to the caller. -/
def acquireStats (reg : Registry) (key : String) : Registry × String :=
  match lookupReg reg key with
  | some s => (setEntry reg key { s with ref := s.ref + 1 }, key)
  | none => (reg ++ [(key, ⟨1, Stats.zero⟩)], key)

/-- `getMetricSetStats(module, name)`: builds the key
`metricbeat.<module>.<name>` and acquires it. -/
def getMetricSetStats (reg : Registry) (module name : String) :
    Registry × String :=
  acquireStats reg (statsKey module name)

/-- `releaseStats(s)`: under the lock, decrement the handle's ref count; when
it reaches zero delete the entry from the registry (and unregister its
monitoring counters). A handle always refers to a live entry (it was handed
out by `getMetricSetStats` and is released at most once), so the entry is
present with `ref ≥ 1` at every release that respects the handle discipline;
on an absent key the model leaves the registry unchanged. -/
def releaseStats (reg : Registry) (key : String) : Registry :=
  match lookupReg reg key with
  | some s =>
    if s.ref - 1 > 0 then setEntry reg key { s with ref := s.ref - 1 }
    else removeKey reg key
  | none => reg

/-- One registry operation of a trace: an acquire of a key, or the release of
a handle previously acquired for that key. -/
inductive RegOp where
  | acquire (key : String)
  | release (key : String)
deriving DecidableEq

/-- Bump the count stored for one key. -/
def bumpKey (live : String → Nat) (k : String) : String → Nat :=
  fun k' => if k' = k then live k' + 1 else live k'

/-- Decrement the count stored for one key. -/
def dropKey (live : String → Nat) (k : String) : String → Nat :=
  fun k' => if k' = k then live k' - 1 else live k'

/-- Checks the handle discipline along a trace, tracking the number of
unreleased acquisitions per key: every release must match an earlier
unreleased acquire of its key. -/
def wfLive (live : String → Nat) : List RegOp → Bool
  | [] => true
  | .acquire k :: rest => wfLive (bumpKey live k) rest
  | .release k :: rest => decide (0 < live k) && wfLive (dropKey live k) rest

/-- A trace is well formed when it releases only handles it acquired. -/
def WFTrace (tr : List RegOp) : Prop := wfLive (fun _ => 0) tr = true

instance : DecidablePred WFTrace := fun tr =>
  inferInstanceAs (Decidable (wfLive (fun _ => 0) tr = true))

/-- Unreleased acquisitions per key after a whole trace. -/
def liveAfter (live : String → Nat) : List RegOp → String → Nat
  | [] => live
  | .acquire k :: rest => liveAfter (bumpKey live k) rest
  | .release k :: rest => liveAfter (dropKey live k) rest

/-- Run a trace of registry operations from a given registry. -/
def runTrace (reg : Registry) : List RegOp → Registry
  | [] => reg
  | .acquire k :: rest => runTrace (acquireStats reg k).1 rest
  | .release k :: rest => runTrace (releaseStats reg k) rest

/-! ### The worker: `Wrapper.Start`'s per-metricset goroutine, `run`,
`startPeriodicFetching` and `fetch`

The observable actions of one worker (status updates to the module's health
reporter, invocations of the metricset's `Fetch`, handing control to a push
metricset's `Run`) are collected into a trace. Channel races are explicit
inputs: whether `done` fired during the startup-jitter sleep, the outcome of
the immediate fetch, and for the ticker loop a schedule of which `select`
branch fired at each iteration. -/

/-- The polling (`Reporting*`) metricset variants dispatched by `fetch`. -/
inductive FetcherKind where
  | reportingV1
  | reportingV2
  | reportingV2Error
  | reportingV2WithContext
deriving DecidableEq

/-- Metricset capabilities dispatched by `run`'s type switch. -/
inductive MetricSetKind where
  | push
  | pushV2
  | pushV2WithContext
  | reporting (fk : FetcherKind)
  | unrecognized
deriving DecidableEq

/-- `status.Status` values the wrapper uses. -/
inductive StatusKind where
  | starting
  | running
  | degraded
deriving DecidableEq

/-- One `UpdateStatus(st, msg)` call. -/
structure StatusUpdate where
  st : StatusKind
  msg : String
deriving DecidableEq

/-- One observable action of a worker. -/
inductive WorkerEvent where
  | status (u : StatusUpdate)
  | fetchCall
  | pushRun
deriving DecidableEq

/-- The message `fetch` logs and reports on a failed cycle. -/
def degradedMsg (module name err : String) : String :=
  "Error fetching data for metricset " ++ module ++ "." ++ name ++ ": " ++ err

/-- The status updates `fetch` issues for one cycle, by fetcher variant:
the fire-and-forget variants (`ReportingMetricSet`, `ReportingMetricSetV2`)
issue none; the error-returning variants report `Degraded` with a message
when `Fetch` returned an error and `Running` with an empty message
otherwise. `fetchErr` is the error the metricset's `Fetch` returned (always
`none` for the variants whose `Fetch` returns nothing). -/
def fetchStatusUpdates (fk : FetcherKind) (module name : String)
    (fetchErr : Option String) : List StatusUpdate :=
  match fk with
  | .reportingV1 => []
  | .reportingV2 => []
  | .reportingV2Error =>
    match fetchErr with
    | some e => [⟨.degraded, degradedMsg module name e⟩]
    | none => [⟨.running, ""⟩]
  | .reportingV2WithContext =>
    match fetchErr with
    | some e => [⟨.degraded, degradedMsg module name e⟩]
    | none => [⟨.running, ""⟩]

/-- The observable trace of one `fetch` cycle: the `Fetch` invocation
followed by the cycle's status updates. -/
def cycleTrace (fk : FetcherKind) (module name : String)
    (fetchErr : Option String) : List WorkerEvent :=
  WorkerEvent.fetchCall :: (fetchStatusUpdates fk module name fetchErr).map .status

/-- One iteration of the ticker loop's `select`: either `<-reporter.V2().Done()`
fired (the loop returns), or `<-t.C` delivered a tick and the fetch of that
cycle returned the given error. -/
inductive SelectStep where
  | doneFired
  | tick (fetchErr : Option String)
deriving DecidableEq

/-- The ticker loop of `startPeriodicFetching`, run over a schedule of
`select` outcomes: stops at the first `doneFired`, performs one fetch cycle
per tick. When the done channel is already closed on entry to an iteration,
the done branch is the only ready branch of the `select` (the ticker has not
yet fired), so that iteration's step is `doneFired`. -/
def fetchLoopTrace (fk : FetcherKind) (module name : String) :
    List SelectStep → List WorkerEvent
  | [] => []
  | .doneFired :: _ => []
  | .tick e :: rest =>
    cycleTrace fk module name e ++ fetchLoopTrace fk module name rest

/-- `startPeriodicFetching`: sets the `periodic` flag, fetches immediately
(before any look at the done channel), then runs the ticker loop. Returns
the trace and the `periodic` flag value it leaves behind. -/
def startPeriodicFetching (fk : FetcherKind) (module name : String)
    (firstErr : Option String) (sched : List SelectStep) :
    List WorkerEvent × Bool :=
  (cycleTrace fk module name firstErr ++ fetchLoopTrace fk module name sched, true)

/-- The channel inputs of one `run` call: whether a startup-jitter window is
configured (`maxStartDelay`), whether `done` fired before the jitter delay
elapsed, the metricset's capability, the error of the immediate fetch, and
the ticker-loop schedule. -/
structure RunParams where
  maxStartDelay : Nat
  doneDuringDelay : Bool
  kind : MetricSetKind
  firstErr : Option String
  sched : List SelectStep
deriving DecidableEq

/-- `metricSetWrapper.run`: if a jitter window is configured and `done` fires
during the random sleep, return at once (empty trace — no dispatch, no
fetch). Otherwise dispatch on the metricset's capability: push variants hand
control to the metricset's own `Run`; polling variants enter
`startPeriodicFetching`; an unrecognized capability only logs an error. -/
def mswRun (module name : String) (p : RunParams) : List WorkerEvent :=
  if 0 < p.maxStartDelay ∧ p.doneDuringDelay then []
  else
    match p.kind with
    | .push => [.pushRun]
    | .pushV2 => [.pushRun]
    | .pushV2WithContext => [.pushRun]
    | .reporting fk => (startPeriodicFetching fk module name p.firstErr p.sched).1
    | .unrecognized => []

/-- The per-worker goroutine body of `Wrapper.Start`: after registering the
worker's metrics it calls `UpdateStatus(Starting, "<module>/<name> is
starting")` and then `run`. -/
def workerTrace (module name : String) (p : RunParams) : List WorkerEvent :=
  .status ⟨.starting, module ++ "/" ++ name ++ " is starting"⟩ ::
    mswRun module name p

/-- Number of `Fetch` invocations in a worker trace. -/
def fetchCount (tr : List WorkerEvent) : Nat :=
  (tr.filter (· = .fetchCall)).length

/-- A sequence of `reporterV2.Event` calls against one reporter: each call
carries the reported event, the wall-clock time of the call, and whether the
shutdown signal rejected the write of that call. -/
def runReports (r : EventReporter) (out : List BeatEvent) :
    List (MBEvent × Nat × Bool) → EventReporter × List BeatEvent
  | [] => (r, out)
  | (e, now, doneFired) :: rest =>
    runReports (reporterV2Event r now doneFired out e).1
      (reporterV2Event r now doneFired out e).2.1 rest

/-! ### Shared lemmas about `reporterV2.Event` -/

/-- None of the population steps of `reporterV2.Event` touches the error. -/
theorem reporterV2EventCore_error (r : EventReporter) (now : Nat) (e : MBEvent) :
    (reporterV2EventCore r now e).1.error = e.error := by
  simp only [reporterV2EventCore]
  split_ifs <;> rfl

/-- The counters produced by the body of `reporterV2.Event` before the write:
exactly one of success/failures is bumped, chosen by the incoming error. -/
theorem reporterV2EventCore_stats (r : EventReporter) (now : Nat) (e : MBEvent) :
    (reporterV2EventCore r now e).2 =
      if e.error = none then { r.stats with success := r.stats.success + 1 }
      else { r.stats with failures := r.stats.failures + 1 } := by
  simp only [reporterV2EventCore]
  split_ifs <;> simp_all

/-- The period of the populated event: stamped with the configured period
exactly when the `periodic` flag is set, untouched otherwise. -/
theorem reporterV2EventCore_period (r : EventReporter) (now : Nat) (e : MBEvent) :
    (reporterV2EventCore r now e).1.period =
      if r.periodic then r.configPeriod else e.period := by
  simp only [reporterV2EventCore]
  split_ifs <;> simp_all

/-- The timestamp of the populated event: kept when non-zero, else the fetch
start when a fetch timer ran, else the wall clock of the call. -/
theorem reporterV2EventCore_timestamp (r : EventReporter) (now : Nat) (e : MBEvent) :
    (reporterV2EventCore r now e).1.timestamp =
      if e.timestamp = 0 then (if r.start ≠ 0 then r.start else now)
      else e.timestamp := by
  simp only [reporterV2EventCore]
  split_ifs <;> simp_all

/-- Counter deltas of one `reporterV2.Event` call. -/
theorem reporterV2Event_stats (r : EventReporter) (now : Nat) (doneFired : Bool)
    (out : List BeatEvent) (e : MBEvent) :
    (reporterV2Event r now doneFired out e).1.stats =
      ⟨r.stats.success + (if e.error = none then 1 else 0),
       r.stats.failures + (if e.error = none then 0 else 1),
       r.stats.events + (if doneFired then 0 else 1)⟩ := by
  simp only [reporterV2Event, writeEvent]
  cases doneFired <;>
    rcases he : e.error <;>
      simp [reporterV2EventCore_stats, he]

/-- Only the stats change on the reporter across one `reporterV2.Event` call. -/
theorem reporterV2Event_reporter (r : EventReporter) (now : Nat) (doneFired : Bool)
    (out : List BeatEvent) (e : MBEvent) :
    (reporterV2Event r now doneFired out e).1 =
      { r with stats := (reporterV2Event r now doneFired out e).1.stats } := by
  simp only [reporterV2Event, writeEvent]
  cases doneFired <;> simp

/-- The output stream after one `reporterV2.Event` call: extended by the
populated event exactly when the shutdown signal did not reject the write. -/
theorem reporterV2Event_out (r : EventReporter) (now : Nat) (doneFired : Bool)
    (out : List BeatEvent) (e : MBEvent) :
    (reporterV2Event r now doneFired out e).2.1 =
      if doneFired then out
      else out ++ [⟨r.moduleName, r.metricSetName, (reporterV2EventCore r now e).1⟩] := by
  simp only [reporterV2Event, writeEvent]
  cases doneFired <;> simp

/-- The acceptance flag returned by one `reporterV2.Event` call. -/
theorem reporterV2Event_accepted (r : EventReporter) (now : Nat) (doneFired : Bool)
    (out : List BeatEvent) (e : MBEvent) :
    (reporterV2Event r now doneFired out e).2.2 = !doneFired := by
  simp only [reporterV2Event, writeEvent]
  cases doneFired <;> simp

/-! ### Shared lemmas about the stats registry -/

theorem lookupReg_setEntry (reg : Registry) (k : String) (e : StatsEntry)
    (k' : String) :
    lookupReg (setEntry reg k e) k' =
      if k' = k then (lookupReg reg k).map (fun _ => e) else lookupReg reg k' := by
  induction reg with
  | nil => simp [lookupReg, setEntry]
  | cons p rest ih =>
    obtain ⟨pk, ps⟩ := p
    by_cases h1 : pk = k
    · subst h1
      by_cases h2 : k' = pk
      · subst h2
        simp [setEntry, lookupReg]
      · have hpk' : ¬ pk = k' := fun hh => h2 hh.symm
        simp [setEntry, lookupReg, h2, hpk', ih]
    · by_cases h2 : k' = pk
      · subst h2
        simp [setEntry, lookupReg, h1]
      · have hpk' : ¬ pk = k' := fun hh => h2 hh.symm
        simp [setEntry, lookupReg, h1, hpk', ih]

theorem lookupReg_removeKey (reg : Registry) (k k' : String) :
    lookupReg (removeKey reg k) k' =
      if k' = k then none else lookupReg reg k' := by
  induction reg with
  | nil => simp [lookupReg, removeKey]
  | cons p rest ih =>
    obtain ⟨pk, ps⟩ := p
    by_cases h1 : pk = k <;> by_cases h2 : pk = k' <;>
      simp_all [removeKey, lookupReg]

theorem lookupReg_append_single (reg : Registry) (k : String) (e : StatsEntry)
    (k' : String) :
    lookupReg (reg ++ [(k, e)]) k' =
      match lookupReg reg k' with
      | some s => some s
      | none => if k' = k then some e else none := by
  induction reg with
  | nil => simp [lookupReg]; split_ifs <;> simp_all [eq_comm]
  | cons p rest ih =>
    obtain ⟨pk, ps⟩ := p
    by_cases h2 : pk = k' <;> simp_all [lookupReg]

theorem map_fst_setEntry (reg : Registry) (k : String) (e : StatsEntry) :
    (setEntry reg k e).map Prod.fst = reg.map Prod.fst := by
  induction reg with
  | nil => rfl
  | cons p rest ih =>
    obtain ⟨pk, ps⟩ := p
    by_cases h : pk = k <;> simp_all [setEntry]

theorem map_fst_removeKey_sublist (reg : Registry) (k : String) :
    ((removeKey reg k).map Prod.fst).Sublist (reg.map Prod.fst) := by
  induction reg with
  | nil => simp [removeKey]
  | cons p rest ih =>
    obtain ⟨pk, ps⟩ := p
    by_cases h : pk = k
    · simpa [removeKey, h] using ih.cons pk
    · simpa [removeKey, h] using ih.cons₂ pk

theorem lookupReg_eq_none_iff (reg : Registry) (k : String) :
    lookupReg reg k = none ↔ k ∉ reg.map Prod.fst := by
  induction reg with
  | nil => simp [lookupReg]
  | cons p rest ih =>
    obtain ⟨pk, ps⟩ := p
    by_cases h : pk = k <;> simp_all [lookupReg, eq_comm]

/-- Invariant tying the registry to the per-key count of unreleased
acquisitions: keys are unique, a key is present iff its live count is
positive, and the stored ref count equals the live count. -/
def RegInv (reg : Registry) (live : String → Nat) : Prop :=
  (reg.map Prod.fst).Nodup ∧
  ∀ k, (lookupReg reg k = none ↔ live k = 0) ∧
       (∀ s, lookupReg reg k = some s → s.ref = live k)

theorem acquireStats_regInv {reg : Registry} {live : String → Nat}
    (h : RegInv reg live) (k : String) :
    RegInv (acquireStats reg k).1 (bumpKey live k) := by
  obtain ⟨hnd, hinv⟩ := h
  rcases hs : lookupReg reg k with _ | s
  · refine ⟨?_, ?_⟩
    · simp only [acquireStats, hs, List.map_append, List.map_cons, List.map_nil]
      have hk : k ∉ reg.map Prod.fst := (lookupReg_eq_none_iff reg k).mp hs
      refine List.Nodup.append hnd (List.nodup_singleton k) ?_
      intro a ha hmem
      simp at hmem
      subst hmem
      exact hk ha
    · intro k'
      simp only [acquireStats, hs, lookupReg_append_single, bumpKey]
      rcases hs' : lookupReg reg k' with _ | s'
      · by_cases hk : k' = k
        · subst hk
          simp [(hinv k').1.mp hs']
        · simp [hk, (hinv k').1.mp hs']
      · have hne : ¬ live k' = 0 := by
          intro h0
          rw [(hinv k').1.mpr h0] at hs'
          exact Option.noConfusion hs'
        by_cases hk : k' = k
        · subst hk
          rw [hs'] at hs
          exact Option.noConfusion hs
        · simp only [if_neg hk]
          exact ⟨by simp [hne], fun s'' h'' => by
            cases h''; exact (hinv k').2 _ hs'⟩
  · refine ⟨?_, ?_⟩
    · simpa [acquireStats, hs, map_fst_setEntry] using hnd
    · intro k'
      simp only [acquireStats, hs, lookupReg_setEntry, bumpKey]
      by_cases hk : k' = k
      · subst hk
        have href : s.ref = live k' := (hinv k').2 s hs
        simp [hs, href]
      · simp only [if_neg hk]
        exact hinv k'

theorem releaseStats_regInv {reg : Registry} {live : String → Nat}
    (h : RegInv reg live) {k : String} (hpos : 0 < live k) :
    RegInv (releaseStats reg k) (dropKey live k) := by
  obtain ⟨hnd, hinv⟩ := h
  rcases hs : lookupReg reg k with _ | s
  · exact absurd ((hinv k).1.mp hs) (by omega)
  · have href : s.ref = live k := (hinv k).2 s hs
    by_cases hbig : s.ref - 1 > 0
    · refine ⟨?_, ?_⟩
      · simp only [releaseStats, hs, if_pos hbig, map_fst_setEntry]
        exact hnd
      · intro k'
        simp only [releaseStats, hs, if_pos hbig, lookupReg_setEntry]
        simp only [dropKey]
        by_cases hk : k' = k
        · subst hk
          simp [hs]
          omega
        · simp only [if_neg hk]
          exact hinv k'
    · refine ⟨?_, ?_⟩
      · simp only [releaseStats, hs, if_neg hbig]
        exact hnd.sublist (map_fst_removeKey_sublist reg k)
      · intro k'
        simp only [releaseStats, hs, if_neg hbig, lookupReg_removeKey]
        simp only [dropKey]
        by_cases hk : k' = k
        · subst hk
          simp
          omega
        · simp only [if_neg hk]
          exact hinv k'

theorem runTrace_regInv :
    ∀ (tr : List RegOp) (reg : Registry) (live : String → Nat),
      RegInv reg live → wfLive live tr = true →
      RegInv (runTrace reg tr) (liveAfter live tr) := by
  intro tr
  induction tr with
  | nil => intro reg live h _; simpa [runTrace, liveAfter] using h
  | cons op rest ih =>
    intro reg live h hwf
    cases op with
    | acquire k =>
      exact ih _ _ (acquireStats_regInv h k) (by simpa [wfLive] using hwf)
    | release k =>
      rw [wfLive, Bool.and_eq_true, decide_eq_true_eq] at hwf
      exact ih _ _ (releaseStats_regInv h hwf.1) hwf.2

/-! ### Shared lemmas about worker traces -/

theorem fetchCount_cons (x : WorkerEvent) (tr : List WorkerEvent) :
    fetchCount (x :: tr) = (if x = .fetchCall then 1 else 0) + fetchCount tr := by
  simp only [fetchCount, List.filter_cons]
  split_ifs with h <;> simp_all [Nat.add_comm]

theorem fetchCount_append (a b : List WorkerEvent) :
    fetchCount (a ++ b) = fetchCount a + fetchCount b := by
  simp [fetchCount, List.filter_append]

theorem fetchCount_statusMap (us : List StatusUpdate) :
    fetchCount (us.map .status) = 0 := by
  induction us with
  | nil => rfl
  | cons u rest ih => simpa [fetchCount_cons] using ih

theorem fetchCount_cycleTrace (fk : FetcherKind) (module name : String)
    (err : Option String) :
    fetchCount (cycleTrace fk module name err) = 1 := by
  simp [cycleTrace, fetchCount_cons, fetchCount_statusMap]

/-- C9's per-sequence invariant, proved by induction over the calls. -/
theorem runReports_events_le :
    ∀ (calls : List (MBEvent × Nat × Bool)) (r : EventReporter)
      (out : List BeatEvent),
      r.stats.events ≤ r.stats.success + r.stats.failures →
      (runReports r out calls).1.stats.events ≤
        (runReports r out calls).1.stats.success +
          (runReports r out calls).1.stats.failures := by
  intro calls
  induction calls with
  | nil => intro r out h; simpa [runReports] using h
  | cons c rest ih =>
    intro r out h
    obtain ⟨e, now, df⟩ := c
    simp only [runReports]
    apply ih
    rw [reporterV2Event_stats]
    cases df <;> rcases e.error <;> simp <;> omega

/-! ### Sample values used by witnesses and counterexamples -/

/-- A reporter mid-fetch: timer started at 10, periodic, period 30. -/
def sampleReporter : EventReporter :=
  ⟨10, true, 30, "host:9200", "spc", "system", "cpu", ⟨2, 3, 4⟩⟩

/-- A raw event with every optional field unset. -/
def sampleEvent : MBEvent := ⟨0, 0, 0, "", "", none, none⟩

/-- A reporter of a push-protocol worker (periodic flag unset), configured
period 5. -/
def pushReporterCex : EventReporter :=
  ⟨0, false, 5, "host", "spc", "mod", "ms", Stats.zero⟩

/-- An event arriving at `report` already carrying period 5 — equal to the
configured period of `pushReporterCex`. -/
def pushEventCex : MBEvent := ⟨7, 1, 5, "h", "n", none, none⟩

/-- A well-formed registry trace: two workers of the same metricset plus one
of another, acquired and released in interleaved order. -/
def regTraceW : List RegOp :=
  [.acquire "metricbeat.system.cpu", .acquire "metricbeat.system.cpu",
   .release "metricbeat.system.cpu", .acquire "metricbeat.nginx.status",
   .release "metricbeat.system.cpu", .release "metricbeat.nginx.status"]

/-- Run parameters of a polling worker with no jitter whose loop sees the
shutdown signal already closed at its first `select`. -/
def pollNoJitterParams : RunParams :=
  ⟨0, false, .reporting .reportingV2Error, some "boom", [.doneFired]⟩

/-! ### The claims -/

/-- C1: every `report` of an event carrying an error bumps the failure
counter by exactly 1 and leaves the success counter unchanged, and vice
versa for an event without an error; the events-published counter bumps by
exactly 1 iff the event was actually accepted onto the output stream — when
shutdown fires before the write completes, `report` returns "not accepted"
(`false`) and the events-published counter is unchanged. -/
theorem C1_report_counters (r : EventReporter) (now : Nat) (doneFired : Bool)
    (out : List BeatEvent) (e : MBEvent) :
    (reporterV2Event r now doneFired out e).1.stats.failures
        = r.stats.failures + (if e.error = none then 0 else 1) ∧
    (reporterV2Event r now doneFired out e).1.stats.success
        = r.stats.success + (if e.error = none then 1 else 0) ∧
    (reporterV2Event r now doneFired out e).1.stats.events
        = r.stats.events + (if doneFired then 0 else 1) ∧
    (reporterV2Event r now doneFired out e).2.2 = !doneFired ∧
    (reporterV2Event r now doneFired out e).2.1
        = (if doneFired then out
           else out ++ [⟨r.moduleName, r.metricSetName,
                         (reporterV2EventCore r now e).1⟩]) := by
  refine ⟨?_, ?_, ?_, reporterV2Event_accepted r now doneFired out e,
    reporterV2Event_out r now doneFired out e⟩ <;>
    rw [reporterV2Event_stats]

/-- The registry contract of C2, as one predicate over a trace: keys stay
unique, a key is present iff its count of unreleased acquisitions is
positive, the stored ref count equals that count, acquire bumps an existing
entry's ref count (returning the same handle key) or registers a fresh
zero-valued entry with ref 1, and release decrements the ref count,
removing the entry when it reaches zero. -/
def RegistryCorrect (tr : List RegOp) : Prop :=
  ((runTrace [] tr).map Prod.fst).Nodup ∧
  (∀ k, lookupReg (runTrace [] tr) k = none ↔ liveAfter (fun _ => 0) tr k = 0) ∧
  (∀ k s, lookupReg (runTrace [] tr) k = some s →
    s.ref = liveAfter (fun _ => 0) tr k) ∧
  (∀ (reg : Registry) (k : String) (s : StatsEntry), lookupReg reg k = some s →
    acquireStats reg k = (setEntry reg k ⟨s.ref + 1, s.counters⟩, k)) ∧
  (∀ (reg : Registry) (k : String), lookupReg reg k = none →
    acquireStats reg k = (reg ++ [(k, ⟨1, Stats.zero⟩)], k)) ∧
  (∀ (reg : Registry) (k : String) (s : StatsEntry), lookupReg reg k = some s →
    1 < s.ref → releaseStats reg k = setEntry reg k ⟨s.ref - 1, s.counters⟩) ∧
  (∀ (reg : Registry) (k : String) (s : StatsEntry), lookupReg reg k = some s →
    s.ref = 1 → releaseStats reg k = removeKey reg k)

/-- C2: for every well-formed sequence of acquire/release calls, the
registry contains an entry for a key iff the number of unreleased
acquisitions for it is positive, at most one entry exists per key, acquire
returns the existing entry with its ref count bumped or creates a fresh
zero-valued entry with ref 1, and release decrements the ref count and
removes the entry on reaching zero. -/
theorem C2_registry_refcount (tr : List RegOp) (h : WFTrace tr) :
    RegistryCorrect tr := by
  have hinv : RegInv (runTrace [] tr) (liveAfter (fun _ => 0) tr) := by
    refine runTrace_regInv tr [] (fun _ => 0) ⟨by simp, fun k => ?_⟩ h
    exact ⟨by simp [lookupReg], fun s hs => by simp [lookupReg] at hs⟩
  obtain ⟨hnd, hlook⟩ := hinv
  refine ⟨hnd, fun k => (hlook k).1, fun k s hs => (hlook k).2 s hs,
    ?_, ?_, ?_, ?_⟩
  · intro reg k s hs
    simp [acquireStats, hs]
  · intro reg k hs
    simp [acquireStats, hs]
  · intro reg k s hs h1
    simp only [releaseStats, hs]
    rw [if_pos (show s.ref - 1 > 0 by omega)]
  · intro reg k s hs h1
    simp only [releaseStats, hs]
    rw [if_neg (show ¬ s.ref - 1 > 0 by omega)]

/-- Witness for C2 at a concrete interleaved trace. -/
theorem C2_registry_refcount_witness :
    WFTrace regTraceW ∧ RegistryCorrect regTraceW :=
  ⟨by decide, C2_registry_refcount regTraceW (by decide)⟩

/-- C3 counterexample: a fetch cycle of a fire-and-forget polling variant
(`ReportingMetricSet` / `ReportingMetricSetV2`) issues no status update at
all — neither "running" nor "degraded" — even when the cycle had an error,
so the claim that the health collaborator is notified after every polling
fetch cycle fails on these variants. -/
theorem C3_cex_no_status_after_cycle :
    fetchStatusUpdates .reportingV2 "system" "cpu" none = [] ∧
    fetchStatusUpdates .reportingV1 "system" "cpu" (some "boom") = [] ∧
    cycleTrace .reportingV2 "system" "cpu" none = [.fetchCall] :=
  ⟨rfl, rfl, rfl⟩

/-- C3 (amended): every Worker notifies "starting" at start; after each
fetch cycle of the error-returning polling variants
(`ReportingMetricSetV2Error`, `ReportingMetricSetV2WithContext`) the health
collaborator is notified with "degraded" plus a descriptive message when
the fetch returned an error and with "running" otherwise; the
fire-and-forget polling variants issue no per-cycle notification. -/
theorem C3_status_reporting (module name : String) (p : RunParams)
    (fk : FetcherKind) (err : Option String) :
    (workerTrace module name p).head? =
      some (.status ⟨.starting, module ++ "/" ++ name ++ " is starting"⟩) ∧
    (fk = .reportingV2Error ∨ fk = .reportingV2WithContext →
      fetchStatusUpdates fk module name err =
        match err with
        | some e => [⟨.degraded, degradedMsg module name e⟩]
        | none => [⟨.running, ""⟩]) ∧
    (fk = .reportingV1 ∨ fk = .reportingV2 →
      fetchStatusUpdates fk module name err = []) := by
  refine ⟨rfl, ?_, ?_⟩
  · rintro (rfl | rfl) <;> cases err <;> rfl
  · rintro (rfl | rfl) <;> rfl

/-- Witness for C3's amended statement: a failing cycle of the
error-returning variant notifies "degraded" with the message. -/
theorem C3_status_reporting_witness :
    fetchStatusUpdates .reportingV2Error "system" "cpu" (some "boom") =
      [⟨.degraded, degradedMsg "system" "cpu" "boom"⟩] :=
  (C3_status_reporting "system" "cpu" pollNoJitterParams .reportingV2Error
    (some "boom")).2.1 (Or.inl rfl)

/-- C4: an event reported with a zero timestamp is emitted with a non-zero
timestamp equal to the fetch-start time when a fetch timer was started
(`start ≠ 0`) and to the wall-clock time of the call otherwise; a non-zero
incoming timestamp is kept. The last conjunct shows the populated event is
exactly what is placed on the output stream when the write is accepted. -/
theorem C4_timestamp_nonzero (r : EventReporter) (now : Nat)
    (out : List BeatEvent) (e : MBEvent) (hnow : 0 < now) :
    (reporterV2EventCore r now e).1.timestamp ≠ 0 ∧
    (reporterV2EventCore r now e).1.timestamp =
      (if e.timestamp = 0 then (if r.start ≠ 0 then r.start else now)
       else e.timestamp) ∧
    (reporterV2Event r now false out e).2.1 =
      out ++ [⟨r.moduleName, r.metricSetName, (reporterV2EventCore r now e).1⟩] := by
  refine ⟨?_, reporterV2EventCore_timestamp r now e, ?_⟩
  · rw [reporterV2EventCore_timestamp]
    split_ifs <;> omega
  · rw [reporterV2Event_out]
    rfl

/-- Witness for C4 at a concrete reporter and zero-timestamp event. -/
theorem C4_timestamp_nonzero_witness :
    (reporterV2EventCore sampleReporter 100 sampleEvent).1.timestamp ≠ 0 :=
  (C4_timestamp_nonzero sampleReporter 100 [] sampleEvent (by decide)).1

/-- C5 counterexample: a push-protocol worker (periodic flag unset) whose
metricset reports an event already carrying period 5 — equal to the unit's
configured period — emits that event unchanged, so the emitted event
carries the configured period although the worker is not polling; the
claimed "iff" fails. -/
theorem C5_cex_push_carries_period :
    pushReporterCex.periodic = false ∧
    (reporterV2Event pushReporterCex 9 false [] pushEventCex).2.1 =
      [⟨"mod", "ms", pushEventCex⟩] ∧
    pushEventCex.period = pushReporterCex.configPeriod := by
  refine ⟨rfl, ?_, rfl⟩
  decide

/-- C5 (amended): `report` stamps the unit's configured period onto the
event exactly when the worker's periodic flag is set (the polling
protocol), and leaves the incoming period untouched otherwise; hence,
whenever push events arrive with the period unset (its zero value), the
emitted event carries the (non-zero) configured period iff the worker is
polling. -/
theorem C5_period_iff_periodic (r : EventReporter) (now : Nat) (e : MBEvent) :
    (reporterV2EventCore r now e).1.period =
      (if r.periodic then r.configPeriod else e.period) ∧
    (e.period = 0 → 0 < r.configPeriod →
      ((reporterV2EventCore r now e).1.period = r.configPeriod ↔
        r.periodic = true)) := by
  refine ⟨reporterV2EventCore_period r now e, ?_⟩
  intro h0 hp
  rw [reporterV2EventCore_period]
  cases hper : r.periodic
  · simp [h0]
    omega
  · simp

/-- Witness for C5's amended statement on a periodic reporter. -/
theorem C5_period_iff_periodic_witness :
    (reporterV2EventCore sampleReporter 100 sampleEvent).1.period =
      sampleReporter.configPeriod ↔ sampleReporter.periodic = true :=
  (C5_period_iff_periodic sampleReporter 100 sampleEvent).2 rfl (by decide)

/-- C6: when a startup-jitter window is configured and the shutdown signal
fires before the randomized delay elapses, `run` returns at once: its trace
is empty — no dispatch to any execution protocol and no fetch at all. -/
theorem C6_shutdown_during_delay (module name : String) (p : RunParams)
    (hdelay : 0 < p.maxStartDelay) (hdone : p.doneDuringDelay = true) :
    mswRun module name p = [] ∧ fetchCount (mswRun module name p) = 0 := by
  have h : mswRun module name p = [] := by
    simp [mswRun, hdelay, hdone]
  exact ⟨h, by rw [h]; rfl⟩

/-- Witness for C6 at a concrete jittered worker. -/
theorem C6_shutdown_during_delay_witness :
    mswRun "system" "cpu" ⟨5, true, .reporting .reportingV2Error, none, []⟩ = [] :=
  (C6_shutdown_during_delay "system" "cpu"
    ⟨5, true, .reporting .reportingV2Error, none, []⟩ (by decide) rfl).1

/-- C7: the channel-backed context reports no deadline, exposes the very
channel it wraps as its done channel, and returns the cancellation error
iff the wrapped channel has fired (nil beforehand). -/
theorem C7_channelContext (c : ChannelContext) :
    c.deadline = (0, false) ∧
    c.doneChan = c.done ∧
    (c.done.closed = true → c.err = some contextCanceled) ∧
    (c.done.closed = false → c.err = none) := by
  refine ⟨rfl, rfl, ?_, ?_⟩ <;> intro h <;> simp [ChannelContext.err, h]

/-- Witness for C7 on a fired channel. -/
theorem C7_channelContext_witness :
    (⟨⟨0, true⟩⟩ : ChannelContext).err = some contextCanceled :=
  (C7_channelContext ⟨⟨0, true⟩⟩).2.2.1 rfl

/-- C8: the deprecated legacy (V1) `ErrorWith` adapter skips entirely when
both the payload map and the error are nil — nothing is forwarded, the
reporter (hence every counter) and the output stream are untouched, and the
call reports acceptance; for any other input it forwards the transformed
event to the event-shaped path and returns that path's result. -/
theorem C8_v1_adapter (r : EventReporter) (now : Nat) (doneFired : Bool)
    (out : List BeatEvent) (err : Option String) (meta : Option MapStr) :
    (err = none ∧ meta = none →
      reporterV1ErrorWith r now doneFired out err meta = (r, out, true)) ∧
    (¬ (err = none ∧ meta = none) →
      reporterV1ErrorWith r now doneFired out err meta =
        reporterV2Event r now doneFired out
          (TransformMapStrToEvent r.moduleName meta err)) := by
  constructor <;> intro h <;> simp [reporterV1ErrorWith, h]

/-- Witness for C8: the nil/nil call is skipped and accepted. -/
theorem C8_v1_adapter_witness :
    reporterV1ErrorWith sampleReporter 1 false [] none none =
      (sampleReporter, [], true) :=
  (C8_v1_adapter sampleReporter 1 false [] none none).1 ⟨rfl, rfl⟩

/-- C9: the success or failure counter is bumped before the write is
attempted, so a call whose write is rejected by shutdown still increments
exactly one of them (by 1) while leaving events-published unchanged and
returning "not accepted"; consequently, over any sequence of `report`
calls, successes plus failures never drops below events-published. -/
theorem C9_counters_ge_events (r : EventReporter) (now : Nat)
    (out : List BeatEvent) (e : MBEvent) (calls : List (MBEvent × Nat × Bool))
    (hstart : r.stats.events ≤ r.stats.success + r.stats.failures) :
    (reporterV2Event r now true out e).1.stats.success +
        (reporterV2Event r now true out e).1.stats.failures =
      r.stats.success + r.stats.failures + 1 ∧
    (reporterV2Event r now true out e).1.stats.events = r.stats.events ∧
    (reporterV2Event r now true out e).2.2 = false ∧
    (runReports r out calls).1.stats.events ≤
      (runReports r out calls).1.stats.success +
        (runReports r out calls).1.stats.failures := by
  refine ⟨?_, ?_, ?_, runReports_events_le calls r out hstart⟩
  · rw [reporterV2Event_stats]
    rcases e.error <;> simp <;> omega
  · rw [reporterV2Event_stats]
    rfl
  · rw [reporterV2Event_accepted]
    rfl

/-- Witness for C9 starting from zero counters. -/
theorem C9_counters_ge_events_witness :
    (runReports ⟨0, false, 5, "", "", "m", "s", Stats.zero⟩ []
        [(sampleEvent, 3, false), (sampleEvent, 4, true)]).1.stats.events ≤
      (runReports ⟨0, false, 5, "", "", "m", "s", Stats.zero⟩ []
        [(sampleEvent, 3, false), (sampleEvent, 4, true)]).1.stats.success +
      (runReports ⟨0, false, 5, "", "", "m", "s", Stats.zero⟩ []
        [(sampleEvent, 3, false), (sampleEvent, 4, true)]).1.stats.failures :=
  (C9_counters_ge_events ⟨0, false, 5, "", "", "m", "s", Stats.zero⟩ 1 []
    sampleEvent [(sampleEvent, 3, false), (sampleEvent, 4, true)]
    (by decide)).2.2.2

/-- C10: a polling worker with no startup-jitter window performs exactly one
immediate fetch before first observing the shutdown signal — its trace
starts with a fetch even when the signal is already closed on entry — and
only after that first fetch does the loop check the signal: when the first
`select` of the loop takes the done branch (the signal already closed,
hence the only ready branch), the total fetch count is exactly 1. -/
theorem C10_immediate_first_fetch (module name : String) (p : RunParams)
    (fk : FetcherKind) (hkind : p.kind = .reporting fk)
    (hdelay : p.maxStartDelay = 0) :
    (mswRun module name p).head? = some .fetchCall ∧
    1 ≤ fetchCount (mswRun module name p) ∧
    (p.sched.head? = some .doneFired → fetchCount (mswRun module name p) = 1) := by
  have hrun : mswRun module name p =
      cycleTrace fk module name p.firstErr ++ fetchLoopTrace fk module name p.sched := by
    simp [mswRun, hdelay, hkind, startPeriodicFetching]
  refine ⟨?_, ?_, ?_⟩
  · rw [hrun]
    simp [cycleTrace]
  · rw [hrun, fetchCount_append, fetchCount_cycleTrace]
    omega
  · intro hd
    rw [hrun, fetchCount_append, fetchCount_cycleTrace]
    rcases hsched : p.sched with _ | ⟨st, rest⟩
    · rw [hsched] at hd
      simp at hd
    · rw [hsched] at hd
      cases st with
      | doneFired => simp [fetchLoopTrace, fetchCount]
      | tick e => simp at hd

/-- Witness for C10: the no-jitter polling worker whose loop immediately
sees the closed signal fetches exactly once. -/
theorem C10_immediate_first_fetch_witness :
    fetchCount (mswRun "system" "cpu" pollNoJitterParams) = 1 :=
  (C10_immediate_first_fetch "system" "cpu" pollNoJitterParams
    .reportingV2Error rfl rfl).2.2 rfl

end BeatsModule
